import Mathlib

/-!
Verification of the CGPA calculator backend (cgpa_backend.py): the input
parsing, validation and calculation pipeline.

Modelling conventions: Python numbers (ints and floats) are modelled as
exact rationals, and the builtin `round(x, 2)` as decimal rounding at two
places with ties to even. JSON-like Python values are modelled by `JVal`;
Python booleans do not occur in any claim and are omitted from the model.
A raised exception is modelled by the `Except` error branch, with `PyErr`
separating `ValueError` (the kind the request handler maps to a 400
response) from the other exception classes the pipeline can raise.
-/

namespace Cgpa

/-- Round a rational to the nearest integer with ties to even: the model of
the Python builtin `round(x)` on an exact value. -/
def rndHE (q : ℚ) : ℤ :=
  if q - ⌊q⌋ < 1/2 then ⌊q⌋
  else if 1/2 < q - ⌊q⌋ then ⌊q⌋ + 1
  else if ⌊q⌋ % 2 = 0 then ⌊q⌋ else ⌊q⌋ + 1

/-- Model of the Python builtin `round(x, 2)` on an exact value. -/
def round2 (q : ℚ) : ℚ := (rndHE (100 * q) : ℚ) / 100

/-- Value of a list of decimal digit characters (most significant first,
accumulated onto `acc`); `none` if some character is not a digit. -/
def digitsVal : List Char → ℕ → Option ℕ
  | [], acc => some acc
  | c :: rest, acc =>
    if c.isDigit then digitsVal rest (10 * acc + (c.toNat - 48)) else none

/-- Parse an unsigned decimal literal such as `9`, `9.0`, `.5` or `1.`.
This is the subset of the strings accepted by the Python builtin `float`
that the development needs; strings outside the subset (exponents, inf,
nan, surrounding whitespace) are conservatively treated as unparseable. -/
def parseUnsigned (cs : List Char) : Option ℚ :=
  let ip := cs.takeWhile (· ≠ '.')
  match cs.dropWhile (· ≠ '.') with
  | [] =>
    if ip.isEmpty then none
    else (digitsVal ip 0).map (fun n => (n : ℚ))
  | _ :: frac =>
    if ip.isEmpty && frac.isEmpty then none
    else
      match digitsVal ip 0, digitsVal frac 0 with
      | some n, some f => some ((n : ℚ) + (f : ℚ) / (10 : ℚ) ^ frac.length)
      | _, _ => none

/-- Model of the Python builtin `float` applied to a string. -/
def parseDec (s : String) : Option ℚ :=
  match s.data with
  | '-' :: rest => (parseUnsigned rest).map (fun q => -q)
  | '+' :: rest => parseUnsigned rest
  | cs => parseUnsigned cs

/-- A JSON-like Python value: numbers (int or float) as exact rationals,
strings, lists, dicts (association lists with distinct keys, insertion
order preserved) and None. -/
inductive JVal where
  | num (q : ℚ)
  | str (s : String)
  | list (items : List JVal)
  | dict (fields : List (String × JVal))
  | null

/-- Dictionary lookup: the binding of the first matching key. -/
def lookup : List (String × JVal) → String → Option JVal
  | [], _ => none
  | kv :: rest, k => if kv.1 = k then some kv.2 else lookup rest k

/-- The ValueError raise sites of the pipeline, one constructor per site,
carrying exactly the values interpolated into the Python message. The
message texts, in source order (cgpa_backend.py lines 33, 36, 49, 52, 56,
59, 65, 68, 71):
`invalidFormat`: "Invalid input format. Expected JSON with 'semesters' key."
`semestersEmpty`: "Semesters must be a non-empty list."
`badSubjectsField`: "Semester {semI}: Missing or invalid 'subjects' field"
`noSubjects`: "Semester {semI} has no subjects!"
`subjectNotObject`: "Semester {semI}, Subject {subI}: Subject must be an object"
`missingFields`: "Semester {semI}, Subject {subI}: Missing 'gp' or 'credits' field"
`notNumbers`: "Semester {semI}, Subject {subI}: GP and Credits must be numbers"
`gpOutOfRange`: "Semester {semI}, Subject {subI}: GP must be between 0-10, got {gp}"
`creditsNotPositive`: "Semester {semI}, Subject {subI}: Credits must be positive, got {cr}" -/
inductive VErr where
  | invalidFormat
  | semestersEmpty
  | badSubjectsField (semI : ℕ)
  | noSubjects (semI : ℕ)
  | subjectNotObject (semI subI : ℕ)
  | missingFields (semI subI : ℕ)
  | notNumbers (semI subI : ℕ)
  | gpOutOfRange (semI subI : ℕ) (gp : ℚ)
  | creditsNotPositive (semI subI : ℕ) (cr : ℚ)
  deriving DecidableEq

/-- The exception classes the pipeline can raise: ValueError (caught by the
request handler and turned into a 400 response), and TypeError,
ZeroDivisionError and KeyError (all caught only by the generic handler and
turned into a 500 response). -/
inductive PyErr where
  | valueErr (e : VErr)
  | typeErr
  | zeroDivErr
  | keyErr
  deriving DecidableEq

/-- Model of the Python builtin `float` on a value: numbers pass through,
strings are parsed, everything else raises (TypeError, reported here as
`none`; validate_data catches it together with ValueError). -/
def pyFloat : JVal → Option ℚ
  | .num q => some q
  | .str s => parseDec s
  | _ => none

/-- Model of the Python membership test `"subjects" in sem`: key membership
for a dict, element membership for a list, substring test for a string,
TypeError for values that are not containers. -/
def hasSubjectsKey : JVal → Except PyErr Bool
  | .dict kvs => .ok (kvs.any (fun kv => kv.1 == "subjects"))
  | .list items =>
    .ok (items.any (fun v => match v with | .str s => s == "subjects" | _ => false))
  | .str s => .ok (decide (2 ≤ (s.splitOn "subjects").length))
  | _ => .error .typeErr

/-- Model of the Python subscript `v[k]` with a string key: dict lookup
(KeyError when the key is absent), TypeError on any non-dict value. -/
def getItem (v : JVal) (k : String) : Except PyErr JVal :=
  match v with
  | .dict kvs =>
    match lookup kvs k with
    | some x => .ok x
    | none => .error .keyErr
  | _ => .error .typeErr

/-- Model of Python iteration `for x in v`: a list yields its items, a
string its characters (as one-character strings), a dict its keys; numbers
and None are not iterable (TypeError). -/
def asIterable : JVal → Except PyErr (List JVal)
  | .list items => .ok items
  | .str s => .ok (s.data.map (fun c => .str c.toString))
  | .dict kvs => .ok (kvs.map (fun kv => .str kv.1))
  | _ => .error .typeErr

/-- parse_api_input (cgpa_backend.py lines 30-38): the input must be a dict
with a "semesters" key, and that entry must be a non-empty list. -/
def parse_api_input (data : JVal) : Except PyErr JVal :=
  match data with
  | .dict kvs =>
    match lookup kvs "semesters" with
    | none => .error (.valueErr .invalidFormat)
    | some (.list []) => .error (.valueErr .semestersEmpty)
    | some (.list (_ :: _)) => .ok data
    | some _ => .error (.valueErr .semestersEmpty)
  | _ => .error (.valueErr .invalidFormat)

/-- Validation of one subject entry (cgpa_backend.py lines 54-71); `semI`
and `subI` are the 1-based positions interpolated into the messages. Note
that the coerced values of `float(subject["gp"])` and
`float(subject["credits"])` are checked and then discarded. -/
def validateSubject (semI subI : ℕ) (subject : JVal) : Except PyErr Unit :=
  match subject with
  | .dict kvs =>
    match lookup kvs "gp", lookup kvs "credits" with
    | some gv, some cv =>
      match pyFloat gv, pyFloat cv with
      | some gp, some cr =>
        if gp < 0 ∨ gp > 10 then .error (.valueErr (.gpOutOfRange semI subI gp))
        else if cr ≤ 0 then .error (.valueErr (.creditsNotPositive semI subI cr))
        else .ok ()
      | _, _ => .error (.valueErr (.notNumbers semI subI))
    | _, _ => .error (.valueErr (.missingFields semI subI))
  | _ => .error (.valueErr (.subjectNotObject semI subI))

/-- The subject loop of validate_data (cgpa_backend.py line 54), starting
at 1-based subject position `subI`. -/
def validateSubjects (semI : ℕ) : ℕ → List JVal → Except PyErr Unit
  | _, [] => .ok ()
  | subI, subject :: rest =>
    match validateSubject semI subI subject with
    | .error e => .error e
    | .ok _ => validateSubjects semI (subI + 1) rest

/-- Validation of one semester entry (cgpa_backend.py lines 48-52 and the
subject loop): membership test for "subjects", then the subscript, the
list-shape test, the emptiness test, then the subjects in order. -/
def validateSem (semI : ℕ) (sem : JVal) : Except PyErr Unit :=
  match hasSubjectsKey sem with
  | .error e => .error e
  | .ok false => .error (.valueErr (.badSubjectsField semI))
  | .ok true =>
    match getItem sem "subjects" with
    | .error e => .error e
    | .ok (.list []) => .error (.valueErr (.noSubjects semI))
    | .ok (.list (s :: rest)) => validateSubjects semI 1 (s :: rest)
    | .ok _ => .error (.valueErr (.badSubjectsField semI))

/-- The semester loop of validate_data (cgpa_backend.py line 47), starting
at 1-based semester position `semI`. -/
def validateSems : ℕ → List JVal → Except PyErr Unit
  | _, [] => .ok ()
  | semI, sem :: rest =>
    match validateSem semI sem with
    | .error e => .error e
    | .ok _ => validateSems (semI + 1) rest

/-- validate_data (cgpa_backend.py lines 43-71). -/
def validate_data (data : JVal) : Except PyErr Unit :=
  match getItem data "semesters" with
  | .error e => .error e
  | .ok sems =>
    match asIterable sems with
    | .error e => .error e
    | .ok items => validateSems 1 items

/-- One product `subject["gp"] * subject["credits"]` inside the first sum
of calculate_sgpa (cgpa_backend.py line 78). A product involving a
non-number is modelled as TypeError: Python would repeat a string when the
other operand is an int, but the surrounding sum then raises the same
TypeError when adding the repeated string, so the observable outcome of
the sum agrees. -/
def subjectPoints (subject : JVal) : Except PyErr ℚ :=
  match getItem subject "gp" with
  | .error e => .error e
  | .ok gv =>
    match getItem subject "credits" with
    | .error e => .error e
    | .ok cv =>
      match gv, cv with
      | .num g, .num c => .ok (g * c)
      | _, _ => .error .typeErr

/-- One term `subject["credits"]` inside the second sum of calculate_sgpa
(cgpa_backend.py line 79); adding a non-number to the running total raises
TypeError. -/
def subjectCredits (subject : JVal) : Except PyErr ℚ :=
  match getItem subject "credits" with
  | .error e => .error e
  | .ok cv =>
    match cv with
    | .num c => .ok c
    | _ => .error .typeErr

/-- The Python builtin `sum` over the results of `f` on the items, started
from 0 and stopped at the first raised error. -/
def sumWith (f : JVal → Except PyErr ℚ) : List JVal → Except PyErr ℚ
  | [] => .ok 0
  | x :: rest =>
    match f x with
    | .error e => .error e
    | .ok v =>
      match sumWith f rest with
      | .error e => .error e
      | .ok s => .ok (v + s)

/-- calculate_sgpa (cgpa_backend.py lines 76-80): the two sums over the
subjects, then the rounded weighted average, raising ZeroDivisionError
when the credit total is zero. Returns (sgpa, total_credits). -/
def calculate_sgpa (subjects : JVal) : Except PyErr (ℚ × ℚ) :=
  match asIterable subjects with
  | .error e => .error e
  | .ok items =>
    match sumWith subjectPoints items with
    | .error e => .error e
    | .ok total_points =>
      match sumWith subjectCredits items with
      | .error e => .error e
      | .ok total_credits =>
        if total_credits = 0 then .error .zeroDivErr
        else .ok (round2 (total_points / total_credits), total_credits)

/-- calculate_cgpa (cgpa_backend.py lines 82-84): the rounded unweighted
mean of the SGPAs, raising ZeroDivisionError on an empty list. -/
def calculate_cgpa (sgpas : List ℚ) : Except PyErr ℚ :=
  if sgpas.length = 0 then .error .zeroDivErr
  else .ok (round2 (sgpas.sum / sgpas.length))

/-- One entry of the semester_details list built by process_calculation
(cgpa_backend.py lines 96-101). -/
structure SemDetail where
  semester : ℕ
  sgpa : ℚ
  total_credits : ℚ
  subject_count : ℕ
  deriving DecidableEq

/-- The result dict built by process_calculation (cgpa_backend.py lines
105-110). -/
structure CalcResult where
  sgpas : List ℚ
  cgpa : ℚ
  total_semesters : ℕ
  semester_details : List SemDetail
  deriving DecidableEq

/-- The semester loop of process_calculation (cgpa_backend.py lines
92-101), starting at 1-based semester position `i`: per semester the
subjects subscript, calculate_sgpa, and the detail entry (whose
subject_count is the Python `len` of the subjects value). -/
def processSems : ℕ → List JVal → Except PyErr (List ℚ × List SemDetail)
  | _, [] => .ok ([], [])
  | i, sem :: rest =>
    match getItem sem "subjects" with
    | .error e => .error e
    | .ok subjects =>
      match calculate_sgpa subjects with
      | .error e => .error e
      | .ok r =>
        match asIterable subjects with
        | .error e => .error e
        | .ok items =>
          match processSems (i + 1) rest with
          | .error e => .error e
          | .ok tl => .ok (r.1 :: tl.1, ⟨i, r.1, r.2, items.length⟩ :: tl.2)

/-- process_calculation (cgpa_backend.py lines 86-110). -/
def process_calculation (data : JVal) : Except PyErr CalcResult :=
  match getItem data "semesters" with
  | .error e => .error e
  | .ok semesters =>
    match asIterable semesters with
    | .error e => .error e
    | .ok items =>
      match processSems 1 items with
      | .error e => .error e
      | .ok pair =>
        match calculate_cgpa pair.1 with
        | .error e => .error e
        | .ok cgpa => .ok ⟨pair.1, cgpa, pair.1.length, pair.2⟩

/-- The JSON object of one subject with numeric (gradePoint, credits)
fields, as the API receives it. -/
def subjJ (p : ℚ × ℚ) : JVal := .dict [("gp", .num p.1), ("credits", .num p.2)]

/-- The JSON object of one semester holding the given numeric
(gradePoint, credits) pairs. -/
def semJ (subs : List (ℚ × ℚ)) : JVal := .dict [("subjects", .list (subs.map subjJ))]

/-- The JSON object of a full record holding the given semesters of
numeric (gradePoint, credits) pairs: the AcademicRecord data model of the
specification. -/
def recordJ (sems : List (List (ℚ × ℚ))) : JVal :=
  .dict [("semesters", .list (sems.map semJ))]

/-- Closed form of the SGPA of a semester of numeric subjects: the rounded
credit-weighted average of the grade points. -/
def termSgpaQ (subs : List (ℚ × ℚ)) : ℚ :=
  round2 ((subs.map (fun p => p.1 * p.2)).sum / (subs.map Prod.snd).sum)

/-- Closed form of the credit total of a semester of numeric subjects. -/
def termCreditsQ (subs : List (ℚ × ℚ)) : ℚ := (subs.map Prod.snd).sum

/-- The expected semester_details entries for semesters of numeric
subjects, starting at 1-based position `i`. -/
def expectedDetails : ℕ → List (List (ℚ × ℚ)) → List SemDetail
  | _, [] => []
  | i, s :: rest => ⟨i, termSgpaQ s, termCreditsQ s, s.length⟩ :: expectedDetails (i + 1) rest

/-- The JSON object of one semester holding the given subject values,
which may be arbitrary (possibly malformed) values. -/
def semOfSubjects (subs : List JVal) : JVal := .dict [("subjects", .list subs)]

/-- The JSON object of a record holding the given terms, each term a list
of arbitrary subject values: the AcademicRecord shape of the data model
with unconstrained subject entries. -/
def recordOfTerms (terms : List (List JVal)) : JVal :=
  .dict [("semesters", .list (terms.map semOfSubjects))]

/-- Spec-side reference (specification section 4.1): what fails validation
for one subject, in the documented check order: the subject must be an
object, the required fields must be present, each field must be
interpretable as a number, the grade point must satisfy 0 ≤ gp ≤ 10 and
the credits must satisfy cr > 0. Carries the 1-based indices and, for the
range checks, the offending value. -/
def specSubjectViolation (semI subI : ℕ) (subject : JVal) : Option VErr :=
  match subject with
  | .dict kvs =>
    match lookup kvs "gp", lookup kvs "credits" with
    | some gv, some cv =>
      match pyFloat gv, pyFloat cv with
      | some gp, some cr =>
        if ¬(0 ≤ gp ∧ gp ≤ 10) then some (.gpOutOfRange semI subI gp)
        else if ¬(0 < cr) then some (.creditsNotPositive semI subI cr)
        else none
      | _, _ => some (.notNumbers semI subI)
    | _, _ => some (.missingFields semI subI)
  | _ => some (.subjectNotObject semI subI)

/-- Spec-side reference: the first violation among the subjects of one
term, scanning in input order from 1-based subject position `subI`. -/
def specScanSubjects (semI : ℕ) : ℕ → List JVal → Option VErr
  | _, [] => none
  | subI, s :: rest =>
    match specSubjectViolation semI subI s with
    | some e => some e
    | none => specScanSubjects semI (subI + 1) rest

/-- Spec-side reference: the first violation scanning terms and their
subjects in input order (term 1 subject 1, term 1 subject 2, ..., term 2
subject 1, ...) from 1-based term position `semI`; a term with no
subjects is itself the violation at that term. -/
def specScanTerms : ℕ → List (List JVal) → Option VErr
  | _, [] => none
  | semI, term :: rest =>
    match term with
    | [] => some (.noSubjects semI)
    | s :: tl =>
      match specScanSubjects semI 1 (s :: tl) with
      | some e => some e
      | none => specScanTerms (semI + 1) rest

/-- Spec-side reference: the first violation of a whole record, scanning
terms and subjects in input order with 1-based indices. -/
def specScanFirstViolation (terms : List (List JVal)) : Option VErr :=
  specScanTerms 1 terms

/-- The sample input served by the /api/sample endpoint and used by the
end-to-end example of the specification (section 8): grade points
9.0, 8.5, 9.2 with credits 3, 4, 3, then 8.8, 9.1, 8.7 with credits
4, 3, 3. -/
def sampleJ : JVal :=
  recordJ [[(9, 3), (17/2, 4), (46/5, 3)], [(44/5, 4), (91/10, 3), (87/10, 3)]]

/-- A record whose only subject carries its grade point as the numeric
string "9.0": the shape validate_data accepts (it coerces with `float`
and discards the result) but calculate_sgpa cannot multiply. -/
def badStrRec : JVal :=
  .dict [("semesters", .list [.dict [("subjects",
    .list [.dict [("gp", .str "9.0"), ("credits", .num 3)]])]])]

instance {e a : Type} [DecidableEq e] [DecidableEq a] : DecidableEq (Except e a) := fun x y =>
  match x, y with
  | .ok u, .ok v =>
    if h : u = v then .isTrue (by rw [h]) else .isFalse (by intro hc; cases hc; exact h rfl)
  | .error u, .error v =>
    if h : u = v then .isTrue (by rw [h]) else .isFalse (by intro hc; cases hc; exact h rfl)
  | .ok _, .error _ => .isFalse (by intro hc; cases hc)
  | .error _, .ok _ => .isFalse (by intro hc; cases hc)

/-! Rounding lemmas: `rndHE` is an integer-valued monotone rounding that
fixes the integers, hence `round2` is monotone and fixes every multiple
of 1/100. -/

theorem rndHE_ge_floor (q : ℚ) : ⌊q⌋ ≤ rndHE q := by
  unfold rndHE; split_ifs <;> omega

theorem rndHE_le_floor_add_one (q : ℚ) : rndHE q ≤ ⌊q⌋ + 1 := by
  unfold rndHE; split_ifs <;> omega

theorem rndHE_intCast (z : ℤ) : rndHE (z : ℚ) = z := by
  unfold rndHE
  rw [Int.floor_intCast]
  have h0 : (z : ℚ) - z = 0 := by ring
  rw [h0]
  norm_num

theorem rndHE_mono {p q : ℚ} (h : p ≤ q) : rndHE p ≤ rndHE q := by
  by_cases hf : ⌊p⌋ = ⌊q⌋
  · unfold rndHE
    rw [hf]
    split_ifs <;> first | omega | linarith
  · have hfl : ⌊p⌋ < ⌊q⌋ := lt_of_le_of_ne (Int.floor_le_floor h) hf
    have h1 := rndHE_le_floor_add_one p
    have h2 := rndHE_ge_floor q
    omega

theorem round2_mono {p q : ℚ} (h : p ≤ q) : round2 p ≤ round2 q := by
  unfold round2
  have hm : rndHE (100 * p) ≤ rndHE (100 * q) := rndHE_mono (by linarith)
  have hc : ((rndHE (100 * p) : ℚ)) ≤ (rndHE (100 * q) : ℚ) := by exact_mod_cast hm
  linarith

theorem round2_div100 (z : ℤ) : round2 ((z : ℚ) / 100) = (z : ℚ) / 100 := by
  unfold round2
  have h : (100 : ℚ) * ((z : ℚ) / 100) = (z : ℚ) := by field_simp
  rw [h, rndHE_intCast]

/-! Validation on records of numeric subjects: validate_data accepts
exactly the records whose every term is non-empty with every grade point
in [0, 10] and every credit value positive. -/

theorem validate_data_recordJ (sems : List (List (ℚ × ℚ))) :
    validate_data (recordJ sems) = validateSems 1 (sems.map semJ) := rfl

theorem validateSubject_subjJ (semI subI : ℕ) (p : ℚ × ℚ) :
    validateSubject semI subI (subjJ p) =
      if p.1 < 0 ∨ p.1 > 10 then .error (.valueErr (.gpOutOfRange semI subI p.1))
      else if p.2 ≤ 0 then .error (.valueErr (.creditsNotPositive semI subI p.2))
      else .ok () := rfl

theorem validateSubject_subjJ_ok (semI subI : ℕ) (p : ℚ × ℚ) :
    validateSubject semI subI (subjJ p) = .ok () ↔ 0 ≤ p.1 ∧ p.1 ≤ 10 ∧ 0 < p.2 := by
  rw [validateSubject_subjJ]
  split_ifs with h1 h2
  · simp only [reduceCtorEq, false_iff]
    intro hc
    rcases h1 with h1 | h1 <;> linarith [hc.1, hc.2.1]
  · simp only [reduceCtorEq, false_iff]
    intro hc
    linarith [hc.2.2]
  · push_neg at h1 h2
    simp only [true_iff]
    exact ⟨h1.1, h1.2, h2⟩

theorem validateSubjects_cons (semI subI : ℕ) (x : JVal) (tl : List JVal) :
    validateSubjects semI subI (x :: tl) = .ok () ↔
      validateSubject semI subI x = .ok () ∧ validateSubjects semI (subI + 1) tl = .ok () := by
  have h : validateSubjects semI subI (x :: tl) =
      match validateSubject semI subI x with
      | .error e => .error e
      | .ok _ => validateSubjects semI (subI + 1) tl := rfl
  cases hx : validateSubject semI subI x with
  | error e => simp [h, hx]
  | ok u => cases u; simp [h, hx]

theorem validateSubjects_map_ok (semI : ℕ) (subs : List (ℚ × ℚ)) : ∀ (subI : ℕ),
    validateSubjects semI subI (subs.map subjJ) = .ok () ↔
      ∀ p ∈ subs, 0 ≤ p.1 ∧ p.1 ≤ 10 ∧ 0 < p.2 := by
  induction subs with
  | nil => intro subI; simp [validateSubjects]
  | cons x tl ih =>
    intro subI
    simp only [List.map_cons, validateSubjects_cons, validateSubject_subjJ_ok, ih,
      List.forall_mem_cons]

theorem validateSem_semJ_ok (semI : ℕ) (subs : List (ℚ × ℚ)) :
    validateSem semI (semJ subs) = .ok () ↔
      subs ≠ [] ∧ ∀ p ∈ subs, 0 ≤ p.1 ∧ p.1 ≤ 10 ∧ 0 < p.2 := by
  cases subs with
  | nil =>
    have h : validateSem semI (semJ []) = .error (.valueErr (.noSubjects semI)) := rfl
    rw [h]
    simp
  | cons x tl =>
    have h : validateSem semI (semJ (x :: tl)) =
        validateSubjects semI 1 ((x :: tl).map subjJ) := rfl
    rw [h, validateSubjects_map_ok]
    simp

theorem validateSems_cons (semI : ℕ) (x : JVal) (tl : List JVal) :
    validateSems semI (x :: tl) = .ok () ↔
      validateSem semI x = .ok () ∧ validateSems (semI + 1) tl = .ok () := by
  have h : validateSems semI (x :: tl) =
      match validateSem semI x with
      | .error e => .error e
      | .ok _ => validateSems (semI + 1) tl := rfl
  cases hx : validateSem semI x with
  | error e => simp [h, hx]
  | ok u => cases u; simp [h, hx]

theorem validateSems_map_ok (sems : List (List (ℚ × ℚ))) : ∀ (i : ℕ),
    validateSems i (sems.map semJ) = .ok () ↔
      ∀ sem ∈ sems, sem ≠ [] ∧ ∀ p ∈ sem, 0 ≤ p.1 ∧ p.1 ≤ 10 ∧ 0 < p.2 := by
  induction sems with
  | nil => intro i; simp [validateSems]
  | cons s tl ih =>
    intro i
    simp only [List.map_cons, validateSems_cons, validateSem_semJ_ok, ih,
      List.forall_mem_cons]

theorem validate_data_recordJ_ok (sems : List (List (ℚ × ℚ))) :
    validate_data (recordJ sems) = .ok () ↔
      ∀ sem ∈ sems, sem ≠ [] ∧ ∀ p ∈ sem, 0 ≤ p.1 ∧ p.1 ≤ 10 ∧ 0 < p.2 := by
  rw [validate_data_recordJ, validateSems_map_ok]

/-! Calculation on semesters of numeric subjects: closed forms of the two
sums, of calculate_sgpa and of the semester loop of process_calculation. -/

theorem subjectPoints_subjJ (p : ℚ × ℚ) : subjectPoints (subjJ p) = .ok (p.1 * p.2) := rfl

theorem subjectCredits_subjJ (p : ℚ × ℚ) : subjectCredits (subjJ p) = .ok p.2 := rfl

theorem sumWith_points_map (subs : List (ℚ × ℚ)) :
    sumWith subjectPoints (subs.map subjJ) = .ok ((subs.map (fun p => p.1 * p.2)).sum) := by
  induction subs with
  | nil => rfl
  | cons x tl ih => simp [sumWith, subjectPoints_subjJ, ih]

theorem sumWith_credits_map (subs : List (ℚ × ℚ)) :
    sumWith subjectCredits (subs.map subjJ) = .ok ((subs.map Prod.snd).sum) := by
  induction subs with
  | nil => rfl
  | cons x tl ih => simp [sumWith, subjectCredits_subjJ, ih]

theorem termCreditsQ_pos (subs : List (ℚ × ℚ)) (hne : subs ≠ [])
    (hpos : ∀ p ∈ subs, 0 < p.2) : 0 < termCreditsQ subs := by
  refine List.sum_pos _ (fun x hx => ?_) (by simpa using hne)
  obtain ⟨p, hp, rfl⟩ := List.mem_map.mp hx
  exact hpos p hp

theorem calculate_sgpa_typed (subs : List (ℚ × ℚ)) (hne : subs ≠ [])
    (hpos : ∀ p ∈ subs, 0 < p.2) :
    calculate_sgpa (.list (subs.map subjJ)) = .ok (termSgpaQ subs, termCreditsQ subs) := by
  have hcr : 0 < (subs.map Prod.snd).sum := termCreditsQ_pos subs hne hpos
  have h : calculate_sgpa (.list (subs.map subjJ)) =
      match sumWith subjectPoints (subs.map subjJ) with
      | .error e => .error e
      | .ok total_points =>
        match sumWith subjectCredits (subs.map subjJ) with
        | .error e => .error e
        | .ok total_credits =>
          if total_credits = 0 then .error .zeroDivErr
          else .ok (round2 (total_points / total_credits), total_credits) := rfl
  rw [h, sumWith_points_map, sumWith_credits_map]
  simp only [if_neg hcr.ne']
  rfl

theorem processSems_typed (sems : List (List (ℚ × ℚ)))
    (h : ∀ sem ∈ sems, sem ≠ [] ∧ ∀ p ∈ sem, 0 < p.2) : ∀ (i : ℕ),
    processSems i (sems.map semJ) = .ok (sems.map termSgpaQ, expectedDetails i sems) := by
  induction sems with
  | nil => intro i; rfl
  | cons s tl ih =>
    intro i
    obtain ⟨⟨hne, hpos⟩, htl⟩ := List.forall_mem_cons.mp h
    have hstep : processSems i ((s :: tl).map semJ) =
        match calculate_sgpa (.list (s.map subjJ)) with
        | .error e => .error e
        | .ok r =>
          match processSems (i + 1) (tl.map semJ) with
          | .error e => .error e
          | .ok t => .ok (r.1 :: t.1, ⟨i, r.1, r.2, (s.map subjJ).length⟩ :: t.2) := rfl
    rw [hstep, calculate_sgpa_typed s hne hpos, ih htl (i + 1)]
    simp [expectedDetails]

theorem parse_api_input_recordJ (sems : List (List (ℚ × ℚ))) :
    parse_api_input (recordJ sems) = if sems = [] then .error (.valueErr .semestersEmpty)
      else .ok (recordJ sems) := by
  cases sems with
  | nil => rfl
  | cons s tl => simp only [if_neg (List.cons_ne_nil s tl)]; rfl

theorem process_calculation_typed (sems : List (List (ℚ × ℚ))) (hne : sems ≠ [])
    (h : ∀ sem ∈ sems, sem ≠ [] ∧ ∀ p ∈ sem, 0 < p.2) :
    process_calculation (recordJ sems) =
      .ok ⟨sems.map termSgpaQ,
        round2 ((sems.map termSgpaQ).sum / (sems.length : ℚ)),
        sems.length, expectedDetails 1 sems⟩ := by
  have hstep : process_calculation (recordJ sems) =
      match processSems 1 (sems.map semJ) with
      | .error e => .error e
      | .ok pair =>
        match calculate_cgpa pair.1 with
        | .error e => .error e
        | .ok cgpa => .ok ⟨pair.1, cgpa, pair.1.length, pair.2⟩ := rfl
  rw [hstep, processSems_typed sems h 1]
  have hl0 : sems.length ≠ 0 := fun hc => hne (List.length_eq_zero.mp hc)
  simp only [calculate_cgpa, List.length_map, if_neg hl0]

/-! Validated terms over arbitrary JSON values: after validation the two
sums of calculate_sgpa either raise TypeError (a subject field that is a
numeric string) or produce a strictly positive credit total, so the
ZeroDivisionError branch is unreachable. -/

theorem getItem_dict_eq (kvs : List (String × JVal)) (k : String) :
    getItem (.dict kvs) k =
      match lookup kvs k with
      | some x => .ok x
      | none => .error .keyErr := rfl

theorem getItem_dict {kvs : List (String × JVal)} {k : String} {v : JVal}
    (h : lookup kvs k = some v) : getItem (.dict kvs) k = .ok v := by
  rw [getItem_dict_eq, h]

theorem validateSubject_dict (semI subI : ℕ) (kvs : List (String × JVal)) :
    validateSubject semI subI (.dict kvs) =
      match lookup kvs "gp", lookup kvs "credits" with
      | some gv, some cv =>
        match pyFloat gv, pyFloat cv with
        | some gp, some cr =>
          if gp < 0 ∨ gp > 10 then .error (.valueErr (.gpOutOfRange semI subI gp))
          else if cr ≤ 0 then .error (.valueErr (.creditsNotPositive semI subI cr))
          else .ok ()
        | _, _ => .error (.valueErr (.notNumbers semI subI))
      | _, _ => .error (.valueErr (.missingFields semI subI)) := rfl

theorem subjectPoints_eval {kvs : List (String × JVal)} {g c : ℚ}
    (hg : lookup kvs "gp" = some (.num g)) (hc : lookup kvs "credits" = some (.num c)) :
    subjectPoints (.dict kvs) = .ok (g * c) := by
  unfold subjectPoints
  rw [getItem_dict hg, getItem_dict hc]

theorem subjectCredits_eval {kvs : List (String × JVal)} {c : ℚ}
    (hc : lookup kvs "credits" = some (.num c)) :
    subjectCredits (.dict kvs) = .ok c := by
  unfold subjectCredits
  rw [getItem_dict hc]

theorem sumWith_cons (f : JVal → Except PyErr ℚ) (x : JVal) (tl : List JVal) :
    sumWith f (x :: tl) =
      match f x with
      | .error e => .error e
      | .ok v =>
        match sumWith f tl with
        | .error e => .error e
        | .ok s => .ok (v + s) := rfl

theorem validateSubject_ok_cases {semI subI : ℕ} {x : JVal}
    (h : validateSubject semI subI x = .ok ()) :
    (∃ g c : ℚ, subjectPoints x = .ok (g * c) ∧ subjectCredits x = .ok c ∧ 0 < c) ∨
      subjectPoints x = .error .typeErr := by
  cases x with
  | num q => simp [validateSubject] at h
  | str s => simp [validateSubject] at h
  | list items => simp [validateSubject] at h
  | null => simp [validateSubject] at h
  | dict kvs =>
    rw [validateSubject_dict] at h
    cases hg : lookup kvs "gp" with
    | none => rw [hg] at h; simp at h
    | some gv =>
      cases hc : lookup kvs "credits" with
      | none => rw [hg, hc] at h; simp at h
      | some cv =>
        rw [hg, hc] at h
        dsimp only [] at h
        cases hpg : pyFloat gv with
        | none => rw [hpg] at h; simp at h
        | some gp =>
          cases hpc : pyFloat cv with
          | none => rw [hpg, hpc] at h; simp at h
          | some cr =>
            rw [hpg, hpc] at h
            dsimp only [] at h
            by_cases h1 : gp < 0 ∨ gp > 10
            · rw [if_pos h1] at h
              exact absurd h (by simp)
            · rw [if_neg h1] at h
              by_cases h2 : cr ≤ 0
              · rw [if_pos h2] at h
                exact absurd h (by simp)
              push_neg at h2
              cases gv with
              | num g =>
                cases cv with
                | num c =>
                  left
                  have hcc : c = cr := by
                    have : pyFloat (JVal.num c) = some c := rfl
                    rw [this] at hpc
                    exact Option.some.inj hpc
                  exact ⟨g, c, subjectPoints_eval hg hc, subjectCredits_eval hc,
                    hcc ▸ h2⟩
                | str s =>
                  right
                  unfold subjectPoints
                  rw [getItem_dict hg, getItem_dict hc]
                | list items => exact absurd hpc (by simp [pyFloat])
                | dict kvs2 => exact absurd hpc (by simp [pyFloat])
                | null => exact absurd hpc (by simp [pyFloat])
              | str s =>
                right
                unfold subjectPoints
                rw [getItem_dict hg, getItem_dict hc]
              | list items => exact absurd hpg (by simp [pyFloat])
              | dict kvs2 => exact absurd hpg (by simp [pyFloat])
              | null => exact absurd hpg (by simp [pyFloat])

theorem sumWith_validated {semI : ℕ} (subs : List JVal) : ∀ (subI : ℕ),
    validateSubjects semI subI subs = .ok () →
    sumWith subjectPoints subs = .error .typeErr ∨
      ∃ tp tc, sumWith subjectPoints subs = .ok tp ∧ sumWith subjectCredits subs = .ok tc ∧
        0 ≤ tc ∧ (subs ≠ [] → 0 < tc) := by
  induction subs with
  | nil =>
    intro subI _
    right
    exact ⟨0, 0, rfl, rfl, le_refl 0, fun hc => absurd rfl hc⟩
  | cons x tl ih =>
    intro subI h
    rw [validateSubjects_cons] at h
    obtain ⟨hx, htl⟩ := h
    rcases validateSubject_ok_cases hx with ⟨g, c, hp, hcx, hcpos⟩ | herr
    · rcases ih (subI + 1) htl with htlerr | ⟨tp, tc, htp, htc, htc0, _⟩
      · left
        rw [sumWith_cons, hp, htlerr]
      · right
        refine ⟨g * c + tp, c + tc, ?_, ?_, by linarith, fun _ => by linarith⟩
        · rw [sumWith_cons, hp, htp]
        · rw [sumWith_cons, hcx, htc]
    · left
      rw [sumWith_cons, herr]

theorem validateSem_ok_subjects {semI : ℕ} {sem : JVal}
    (h : validateSem semI sem = .ok ()) {subs : JVal}
    (hs : getItem sem "subjects" = .ok subs) :
    ∃ items, subs = .list items ∧ items ≠ [] ∧ validateSubjects semI 1 items = .ok () := by
  unfold validateSem at h
  cases hk : hasSubjectsKey sem with
  | error e => rw [hk] at h; simp at h
  | ok b =>
    rw [hk] at h
    cases b with
    | false => simp at h
    | true =>
      simp only [] at h
      rw [hs] at h
      cases subs with
      | list items =>
        cases items with
        | nil => simp at h
        | cons s tl => exact ⟨s :: tl, rfl, by simp, h⟩
      | num q => simp at h
      | str s => simp at h
      | dict kvs => simp at h
      | null => simp at h

theorem calculate_sgpa_list_eq (items : List JVal) :
    calculate_sgpa (.list items) =
      match sumWith subjectPoints items with
      | .error e => .error e
      | .ok total_points =>
        match sumWith subjectCredits items with
        | .error e => .error e
        | .ok total_credits =>
          if total_credits = 0 then .error .zeroDivErr
          else .ok (round2 (total_points / total_credits), total_credits) := rfl

/-! The code validator agrees with the specification's first-violation
scan on every record of the documented shape (a sequence of terms, each a
sequence of arbitrary subject values). -/

theorem specSubjectViolation_dict (semI subI : ℕ) (kvs : List (String × JVal)) :
    specSubjectViolation semI subI (.dict kvs) =
      match lookup kvs "gp", lookup kvs "credits" with
      | some gv, some cv =>
        match pyFloat gv, pyFloat cv with
        | some gp, some cr =>
          if ¬(0 ≤ gp ∧ gp ≤ 10) then some (.gpOutOfRange semI subI gp)
          else if ¬(0 < cr) then some (.creditsNotPositive semI subI cr)
          else none
        | _, _ => some (.notNumbers semI subI)
      | _, _ => some (.missingFields semI subI) := rfl

theorem validateSubject_eq_spec (semI subI : ℕ) (x : JVal) :
    validateSubject semI subI x =
      match specSubjectViolation semI subI x with
      | none => .ok ()
      | some e => .error (.valueErr e) := by
  cases x with
  | num q => rfl
  | str s => rfl
  | list items => rfl
  | null => rfl
  | dict kvs =>
    rw [validateSubject_dict, specSubjectViolation_dict]
    cases hg : lookup kvs "gp" with
    | none => rfl
    | some gv =>
      cases hc : lookup kvs "credits" with
      | none => rfl
      | some cv =>
        dsimp only []
        cases hpg : pyFloat gv with
        | none => rfl
        | some gp =>
          cases hpc : pyFloat cv with
          | none => rfl
          | some cr =>
            dsimp only []
            by_cases h1 : gp < 0 ∨ gp > 10
            · have h1s : ¬(0 ≤ gp ∧ gp ≤ 10) := by
                intro hand
                rcases h1 with hl | hr <;> linarith [hand.1, hand.2]
              rw [if_pos h1, if_pos h1s]
            · have h1s : 0 ≤ gp ∧ gp ≤ 10 := by
                push_neg at h1
                exact ⟨h1.1, h1.2⟩
              rw [if_neg h1, if_neg (not_not_intro h1s)]
              by_cases h2 : cr ≤ 0
              · rw [if_pos h2, if_pos (not_lt.mpr h2)]
              · rw [if_neg h2, if_neg (not_not_intro (lt_of_not_le h2))]

theorem validateSubjects_eq_spec (semI : ℕ) (subs : List JVal) : ∀ (subI : ℕ),
    validateSubjects semI subI subs =
      match specScanSubjects semI subI subs with
      | none => .ok ()
      | some e => .error (.valueErr e) := by
  induction subs with
  | nil => intro subI; rfl
  | cons x tl ih =>
    intro subI
    have hl : validateSubjects semI subI (x :: tl) =
        match validateSubject semI subI x with
        | .error e => .error e
        | .ok _ => validateSubjects semI (subI + 1) tl := rfl
    have hr : specScanSubjects semI subI (x :: tl) =
        match specSubjectViolation semI subI x with
        | some e => some e
        | none => specScanSubjects semI (subI + 1) tl := rfl
    rw [hl, hr, validateSubject_eq_spec]
    cases specSubjectViolation semI subI x with
    | none => exact ih (subI + 1)
    | some e => rfl

theorem validateSem_semOfSubjects_eq (semI : ℕ) (term : List JVal) :
    validateSem semI (semOfSubjects term) =
      match term with
      | [] => .error (.valueErr (.noSubjects semI))
      | s :: tl => validateSubjects semI 1 (s :: tl) := by
  cases term with
  | nil => rfl
  | cons s tl => rfl

theorem validateSems_eq_specScan (terms : List (List JVal)) : ∀ (i : ℕ),
    validateSems i (terms.map semOfSubjects) =
      match specScanTerms i terms with
      | none => .ok ()
      | some e => .error (.valueErr e) := by
  induction terms with
  | nil => intro i; rfl
  | cons t rest ih =>
    intro i
    have hl : validateSems i ((t :: rest).map semOfSubjects) =
        match validateSem i (semOfSubjects t) with
        | .error e => .error e
        | .ok _ => validateSems (i + 1) (rest.map semOfSubjects) := rfl
    rw [hl, validateSem_semOfSubjects_eq]
    cases t with
    | nil => rfl
    | cons s tl =>
      dsimp only []
      rw [validateSubjects_eq_spec]
      have hr : specScanTerms i ((s :: tl) :: rest) =
          match specScanSubjects i 1 (s :: tl) with
          | some e => some e
          | none => specScanTerms (i + 1) rest := rfl
      rw [hr]
      cases specScanSubjects i 1 (s :: tl) with
      | some e => rfl
      | none => exact ih (i + 1)

/-! Bounds on folds and sums needed to place the rounded mean between the
extremes of the SGPA list. -/

theorem le_foldl_max (l : List ℚ) : ∀ (a : ℚ), a ≤ l.foldl max a := by
  induction l with
  | nil => intro a; exact le_refl a
  | cons x tl ih => intro a; exact le_trans (le_max_left a x) (ih (max a x))

theorem mem_le_foldl_max (l : List ℚ) : ∀ (a x : ℚ), x ∈ l → x ≤ l.foldl max a := by
  induction l with
  | nil => intro a x hx; cases hx
  | cons y tl ih =>
    intro a x hx
    rcases List.mem_cons.mp hx with rfl | hx
    · exact le_trans (le_max_right a x) (le_foldl_max tl (max a x))
    · exact ih (max a y) x hx

theorem foldl_max_choice (l : List ℚ) : ∀ (a : ℚ), l.foldl max a = a ∨ l.foldl max a ∈ l := by
  induction l with
  | nil => intro a; exact Or.inl rfl
  | cons x tl ih =>
    intro a
    rcases ih (max a x) with h | h
    · rcases max_choice a x with hm | hm
      · left; rw [List.foldl_cons, h, hm]
      · right; rw [List.foldl_cons, h, hm]; exact List.mem_cons_self x tl
    · right; exact List.mem_cons_of_mem x h

theorem foldl_min_le (l : List ℚ) : ∀ (a : ℚ), l.foldl min a ≤ a := by
  induction l with
  | nil => intro a; exact le_refl a
  | cons x tl ih => intro a; exact le_trans (ih (min a x)) (min_le_left a x)

theorem foldl_min_le_mem (l : List ℚ) : ∀ (a x : ℚ), x ∈ l → l.foldl min a ≤ x := by
  induction l with
  | nil => intro a x hx; cases hx
  | cons y tl ih =>
    intro a x hx
    rcases List.mem_cons.mp hx with rfl | hx
    · exact le_trans (foldl_min_le tl (min a x)) (min_le_right a x)
    · exact ih (min a y) x hx

theorem foldl_min_choice (l : List ℚ) : ∀ (a : ℚ), l.foldl min a = a ∨ l.foldl min a ∈ l := by
  induction l with
  | nil => intro a; exact Or.inl rfl
  | cons x tl ih =>
    intro a
    rcases ih (min a x) with h | h
    · rcases min_choice a x with hm | hm
      · left; rw [List.foldl_cons, h, hm]
      · right; rw [List.foldl_cons, h, hm]; exact List.mem_cons_self x tl
    · right; exact List.mem_cons_of_mem x h

theorem sum_le_length_mul (l : List ℚ) (M : ℚ) (h : ∀ x ∈ l, x ≤ M) :
    l.sum ≤ (l.length : ℚ) * M := by
  induction l with
  | nil => simp
  | cons x tl ih =>
    obtain ⟨hx, htl⟩ := List.forall_mem_cons.mp h
    have hs := ih htl
    simp only [List.sum_cons, List.length_cons]
    push_cast
    linarith

theorem length_mul_le_sum (l : List ℚ) (m : ℚ) (h : ∀ x ∈ l, m ≤ x) :
    (l.length : ℚ) * m ≤ l.sum := by
  induction l with
  | nil => simp
  | cons x tl ih =>
    obtain ⟨hx, htl⟩ := List.forall_mem_cons.mp h
    have hs := ih htl
    simp only [List.sum_cons, List.length_cons]
    push_cast
    linarith

/-! Inversion lemmas for the ok results of the calculator. -/

theorem calculate_sgpa_ok_form {v : JVal} {r : ℚ × ℚ} (h : calculate_sgpa v = .ok r) :
    ∃ z : ℤ, r.1 = (z : ℚ) / 100 := by
  unfold calculate_sgpa at h
  cases hi : asIterable v with
  | error e => rw [hi] at h; simp at h
  | ok items =>
    rw [hi] at h
    dsimp only [] at h
    cases hp : sumWith subjectPoints items with
    | error e => rw [hp] at h; simp at h
    | ok tp =>
      rw [hp] at h
      dsimp only [] at h
      cases hc : sumWith subjectCredits items with
      | error e => rw [hc] at h; simp at h
      | ok tc =>
        rw [hc] at h
        dsimp only [] at h
        split_ifs at h with h0
        injection h with h
        refine ⟨rndHE (100 * (tp / tc)), ?_⟩
        rw [← h]
        rfl

theorem processSems_cons (i : ℕ) (sem : JVal) (rest : List JVal) :
    processSems i (sem :: rest) =
      match getItem sem "subjects" with
      | .error e => .error e
      | .ok subjects =>
        match calculate_sgpa subjects with
        | .error e => .error e
        | .ok r =>
          match asIterable subjects with
          | .error e => .error e
          | .ok items =>
            match processSems (i + 1) rest with
            | .error e => .error e
            | .ok tl => .ok (r.1 :: tl.1, ⟨i, r.1, r.2, items.length⟩ :: tl.2) := rfl

theorem processSems_sgpa_form (l : List JVal) : ∀ (i : ℕ) (sg : List ℚ) (det : List SemDetail),
    processSems i l = .ok (sg, det) → ∀ x ∈ sg, ∃ z : ℤ, x = (z : ℚ) / 100 := by
  induction l with
  | nil =>
    intro i sg det h x hx
    have h0 : processSems i ([] : List JVal) = .ok ([], []) := rfl
    rw [h0] at h
    injection h with h
    rw [← (Prod.mk.injEq _ _ _ _).mp h |>.1] at hx
    cases hx
  | cons sem rest ih =>
    intro i sg det h x hx
    rw [processSems_cons] at h
    cases hg : getItem sem "subjects" with
    | error e => rw [hg] at h; simp at h
    | ok subjects =>
      rw [hg] at h
      dsimp only [] at h
      cases hcal : calculate_sgpa subjects with
      | error e => rw [hcal] at h; simp at h
      | ok r =>
        rw [hcal] at h
        dsimp only [] at h
        cases hit : asIterable subjects with
        | error e => rw [hit] at h; simp at h
        | ok items =>
          rw [hit] at h
          dsimp only [] at h
          cases hrec : processSems (i + 1) rest with
          | error e => rw [hrec] at h; simp at h
          | ok tl =>
            rw [hrec] at h
            dsimp only [] at h
            injection h with h
            have hsg : sg = r.1 :: tl.1 := ((Prod.mk.injEq _ _ _ _).mp h).1.symm
            rw [hsg] at hx
            rcases List.mem_cons.mp hx with rfl | hx
            · exact calculate_sgpa_ok_form hcal
            · exact ih (i + 1) tl.1 tl.2 hrec x hx

theorem calculate_cgpa_ok {sg : List ℚ} {c : ℚ} (h : calculate_cgpa sg = .ok c) :
    sg.length ≠ 0 ∧ c = round2 (sg.sum / (sg.length : ℚ)) := by
  unfold calculate_cgpa at h
  split_ifs at h with h0
  injection h with h
  exact ⟨h0, h.symm⟩

theorem validateSems_append (l1 l2 : List JVal) : ∀ (i : ℕ),
    validateSems i (l1 ++ l2) =
      match validateSems i l1 with
      | .error e => .error e
      | .ok _ => validateSems (i + l1.length) l2 := by
  induction l1 with
  | nil => intro i; simp [validateSems]
  | cons x tl ih =>
    intro i
    have hl : validateSems i ((x :: tl) ++ l2) =
        match validateSem i x with
        | .error e => .error e
        | .ok _ => validateSems (i + 1) (tl ++ l2) := rfl
    have hr : validateSems i (x :: tl) =
        match validateSem i x with
        | .error e => .error e
        | .ok _ => validateSems (i + 1) tl := rfl
    rw [hl, hr]
    cases validateSem i x with
    | error e => rfl
    | ok u =>
      dsimp only []
      rw [ih (i + 1)]
      have harith : i + 1 + tl.length = i + (tl.length + 1) := by omega
      simp only [List.length_cons, harith]

theorem sum_mul_of_const_gp (g : ℚ) (subs : List (ℚ × ℚ)) (hg : ∀ p ∈ subs, p.1 = g) :
    (subs.map (fun p => p.1 * p.2)).sum = g * (subs.map Prod.snd).sum := by
  induction subs with
  | nil => simp
  | cons x tl ih =>
    obtain ⟨hx, htl⟩ := List.forall_mem_cons.mp hg
    simp only [List.map_cons, List.sum_cons, ih htl, hx]
    ring

/-! The claims. -/

/-- C1: for every term of numeric subjects that has passed validation (as
the sole term of a record), calculate_sgpa returns the sgpa
round(Σ gradePoint·credits / Σ credits, 2 decimals) together with the
credit total Σ credits. -/
theorem claim1_sgpa_weighted_average (subs : List (ℚ × ℚ))
    (hv : validate_data (recordJ [subs]) = .ok ()) :
    calculate_sgpa (.list (subs.map subjJ)) =
      .ok (round2 ((subs.map (fun p => p.1 * p.2)).sum / (subs.map Prod.snd).sum),
        (subs.map Prod.snd).sum) := by
  obtain ⟨hne, hall⟩ := (validate_data_recordJ_ok [subs]).mp hv subs (List.mem_cons_self _ _)
  exact calculate_sgpa_typed subs hne (fun p hp => (hall p hp).2.2)

/-- Witness for C1 at the term [(9, 2)]. -/
theorem claim1_witness :
    calculate_sgpa (.list ([((9 : ℚ), (2 : ℚ))].map subjJ)) =
      .ok (round2 (([((9 : ℚ), (2 : ℚ))].map (fun p => p.1 * p.2)).sum /
          ([((9 : ℚ), (2 : ℚ))].map Prod.snd).sum),
        ([((9 : ℚ), (2 : ℚ))].map Prod.snd).sum) :=
  claim1_sgpa_weighted_average [(9, 2)] (by with_unfolding_all decide)

/-- C2: on every validated record (of numeric subjects, accepted by
parse_api_input and validate_data), process_calculation computes the SGPA
of every term in input order and the cgpa as the 2-decimal rounding of
the unweighted arithmetic mean of those SGPAs (not a credit-weighted
mean). -/
theorem claim2_cgpa_unweighted_mean (sems : List (List (ℚ × ℚ)))
    (hp : parse_api_input (recordJ sems) = .ok (recordJ sems))
    (hv : validate_data (recordJ sems) = .ok ()) :
    process_calculation (recordJ sems) =
      .ok ⟨sems.map termSgpaQ,
        round2 ((sems.map termSgpaQ).sum / (sems.length : ℚ)),
        sems.length, expectedDetails 1 sems⟩ := by
  have hne : sems ≠ [] := by
    intro hc
    rw [hc, parse_api_input_recordJ] at hp
    simp at hp
  have hall := (validate_data_recordJ_ok sems).mp hv
  exact process_calculation_typed sems hne
    (fun sem hs => ⟨(hall sem hs).1, fun p hp2 => ((hall sem hs).2 p hp2).2.2⟩)

/-- Witness for C2 at the record [[(9, 2)]]. -/
theorem claim2_witness :
    process_calculation (recordJ [[((9 : ℚ), (2 : ℚ))]]) =
      .ok ⟨[[((9 : ℚ), (2 : ℚ))]].map termSgpaQ,
        round2 (([[((9 : ℚ), (2 : ℚ))]].map termSgpaQ).sum /
          (([[((9 : ℚ), (2 : ℚ))]] : List (List (ℚ × ℚ))).length : ℚ)),
        ([[((9 : ℚ), (2 : ℚ))]] : List (List (ℚ × ℚ))).length,
        expectedDetails 1 [[((9 : ℚ), (2 : ℚ))]]⟩ :=
  claim2_cgpa_unweighted_mean [[(9, 2)]] (by rfl) (by with_unfolding_all decide)

/-- C3 (amended): the sample input passes the pipeline and yields
semester 1 SGPA = 8.86, semester 2 SGPA = 8.86 and CGPA = 8.86 (the
specification wrongly announces 8.87 for semester 1 and for the CGPA:
(9.0·3 + 8.5·4 + 9.2·3)/10 = 8.86 exactly). -/
theorem claim3_sample_pipeline :
    parse_api_input sampleJ = .ok sampleJ ∧ validate_data sampleJ = .ok () ∧
    process_calculation sampleJ =
      .ok ⟨[443/50, 443/50], 443/50, 2, [⟨1, 443/50, 10, 3⟩, ⟨2, 443/50, 10, 3⟩]⟩ :=
  ⟨by rfl, by with_unfolding_all decide, by with_unfolding_all decide⟩

/-- C3 counterexample: on the sample input the pipeline returns CGPA 8.86
(= 443/50) and SGPAs [8.86, 8.86], not the claimed 8.87. -/
theorem claim3_counterexample :
    (process_calculation sampleJ).map CalcResult.cgpa = .ok ((443 : ℚ)/50) ∧
    (process_calculation sampleJ).map CalcResult.sgpas = .ok [(443 : ℚ)/50, 443/50] ∧
    ((443 : ℚ)/50) ≠ 887/100 :=
  ⟨by with_unfolding_all decide, by with_unfolding_all decide, by with_unfolding_all decide⟩

/-- C4: on records of numeric subjects, validation succeeds exactly when
every term is non-empty, every grade point satisfies 0 ≤ gp ≤ 10 (both
bounds accepted) and every credits value is strictly positive (zero and
negative credits rejected). -/
theorem claim4_validation_ranges (sems : List (List (ℚ × ℚ))) :
    validate_data (recordJ sems) = .ok () ↔
      ∀ sem ∈ sems, sem ≠ [] ∧ ∀ p ∈ sem, 0 ≤ p.1 ∧ p.1 ≤ 10 ∧ 0 < p.2 :=
  validate_data_recordJ_ok sems

/-- C5 (amended): an empty semesters list is rejected by parse_api_input
with the generic "Semesters must be a non-empty list." error, which names
no term; a term with an empty subjects list placed after a valid prefix
is rejected by validate_data with an error naming that term's 1-based
index. -/
theorem claim5_empty_rejection (good rest : List (List (ℚ × ℚ)))
    (hv : validate_data (recordJ good) = .ok ()) :
    parse_api_input (.dict [("semesters", .list [])]) = .error (.valueErr .semestersEmpty) ∧
    validate_data (recordJ (good ++ [] :: rest)) =
      .error (.valueErr (.noSubjects (good.length + 1))) := by
  refine ⟨rfl, ?_⟩
  have hmap : (good ++ [] :: rest).map semJ =
      good.map semJ ++ semJ [] :: rest.map semJ := by
    simp [List.map_append]
  rw [validate_data_recordJ, hmap, validateSems_append]
  rw [validate_data_recordJ] at hv
  rw [hv]
  dsimp only []
  rw [List.length_map]
  have hstep : validateSems (1 + good.length) (semJ [] :: rest.map semJ) =
      .error (.valueErr (.noSubjects (1 + good.length))) := rfl
  rw [hstep, Nat.add_comm 1 good.length]

/-- C5 counterexample: the input with an empty semesters list is rejected
by parse_api_input with the error rendered as "Semesters must be a
non-empty list.", which names no term (there is no term to name); indeed
validate_data itself even accepts the empty list, and the raised error is
distinct from every term-naming error. -/
theorem claim5_counterexample :
    parse_api_input (.dict [("semesters", .list [])]) = .error (.valueErr .semestersEmpty) ∧
    validate_data (.dict [("semesters", .list [])]) = .ok () ∧
    ∀ i : ℕ, VErr.semestersEmpty ≠ .noSubjects i ∧ VErr.semestersEmpty ≠ .badSubjectsField i :=
  ⟨rfl, rfl, fun _ => ⟨fun h => VErr.noConfusion h, fun h => VErr.noConfusion h⟩⟩

/-- Witness for C5 at good = [[(9, 1)]], rest = []. -/
theorem claim5_witness :
    parse_api_input (.dict [("semesters", .list [])]) = .error (.valueErr .semestersEmpty) ∧
    validate_data (recordJ ([[((9 : ℚ), (1 : ℚ))]] ++ [] :: [])) =
      .error (.valueErr (.noSubjects ([[((9 : ℚ), (1 : ℚ))]].length + 1))) :=
  claim5_empty_rejection [[(9, 1)]] [] (by with_unfolding_all decide)

/-- C6 (amended): on every record of the documented shape (a sequence of
terms, each a sequence of subject values), validate_data raises exactly
the ValueError of the first violation found scanning terms and subjects
in input order; by construction of `VErr`, that error carries the 1-based
term index, for subject-level failures the 1-based subject index, and the
offending value for the two range failures — but (contrary to the claim)
not for the type failure, whose message carries the indices only. -/
theorem claim6_first_violation (terms : List (List JVal)) :
    validate_data (recordOfTerms terms) =
      match specScanFirstViolation terms with
      | none => .ok ()
      | some e => .error (.valueErr e) := by
  have h : validate_data (recordOfTerms terms) = validateSems 1 (terms.map semOfSubjects) := rfl
  rw [h, validateSems_eq_specScan]
  rfl

/-- C6 counterexample: a type failure (gp given as the non-numeric string
"abc") raises the ValueError rendered as "Semester 1, Subject 1: GP and
Credits must be numbers", which carries the two 1-based indices but not
the offending value. -/
theorem claim6_counterexample :
    validate_data (recordOfTerms [[JVal.dict [("gp", .str "abc"), ("credits", .num 3)]]]) =
      .error (.valueErr (.notNumbers 1 1)) := by
  rfl

/-- C7: a term that has passed validation never reaches the
ZeroDivisionError branch of calculate_sgpa, and whenever calculate_sgpa
returns a result its credit total (the denominator of the average) is
strictly positive. -/
theorem claim7_no_zero_division (semI : ℕ) (sem : JVal)
    (h : validateSem semI sem = .ok ()) (subs : JVal)
    (hs : getItem sem "subjects" = .ok subs) :
    calculate_sgpa subs ≠ .error .zeroDivErr ∧
      ∀ s tc, calculate_sgpa subs = .ok (s, tc) → 0 < tc := by
  obtain ⟨items, rfl, hne, hval⟩ := validateSem_ok_subjects h hs
  rcases sumWith_validated items 1 hval with herr | ⟨tp, tc, htp, htc, _, hpos⟩
  · have hcalc : calculate_sgpa (.list items) = .error .typeErr := by
      rw [calculate_sgpa_list_eq, herr]
    rw [hcalc]
    refine ⟨by simp, ?_⟩
    intro s tc hcon
    simp at hcon
  · have htcpos := hpos hne
    have hcalc : calculate_sgpa (.list items) = .ok (round2 (tp / tc), tc) := by
      rw [calculate_sgpa_list_eq, htp, htc]
      dsimp only []
      rw [if_neg htcpos.ne']
    rw [hcalc]
    refine ⟨by simp, ?_⟩
    intro s tc2 hcon
    injection hcon with hcon
    have h2 := congrArg Prod.snd hcon
    simp at h2
    rw [← h2]
    exact htcpos

/-- Witness for C7 at the validated term [(9, 2)]. -/
theorem claim7_witness :
    calculate_sgpa (.list ([((9 : ℚ), (2 : ℚ))].map subjJ)) ≠ .error .zeroDivErr ∧
      ∀ s tc, calculate_sgpa (.list ([((9 : ℚ), (2 : ℚ))].map subjJ)) = .ok (s, tc) → 0 < tc :=
  claim7_no_zero_division 1 (semJ [(9, 2)]) (by with_unfolding_all decide)
    (.list ([((9 : ℚ), (2 : ℚ))].map subjJ)) (by rfl)

/-- C8 (amended): on a validated term whose subjects all share the same
grade point g, calculate_sgpa returns round2 g regardless of the credit
values — equal to g exactly when g is a multiple of 1/100, but not for a
finer g such as 8.554. -/
theorem claim8_constant_gp (g : ℚ) (subs : List (ℚ × ℚ))
    (hv : validate_data (recordJ [subs]) = .ok ())
    (hg : ∀ p ∈ subs, p.1 = g) :
    calculate_sgpa (.list (subs.map subjJ)) = .ok (round2 g, (subs.map Prod.snd).sum) := by
  obtain ⟨hne, hall⟩ := (validate_data_recordJ_ok [subs]).mp hv subs (List.mem_cons_self _ _)
  have hpos : ∀ p ∈ subs, 0 < p.2 := fun p hp => (hall p hp).2.2
  have hS : 0 < (subs.map Prod.snd).sum := termCreditsQ_pos subs hne hpos
  have h1 : termSgpaQ subs = round2 g := by
    unfold termSgpaQ
    rw [sum_mul_of_const_gp g subs hg, mul_div_assoc, div_self hS.ne', mul_one]
  rw [calculate_sgpa_typed subs hne hpos, h1]
  rfl

/-- Witness for C8 at the term [(7, 2), (7, 3)] with g = 7. -/
theorem claim8_witness :
    calculate_sgpa (.list ([((7 : ℚ), (2 : ℚ)), (7, 3)].map subjJ)) =
      .ok (round2 7, ([((7 : ℚ), (2 : ℚ)), (7, 3)].map Prod.snd).sum) :=
  claim8_constant_gp 7 [(7, 2), (7, 3)] (by with_unfolding_all decide)
    (by with_unfolding_all decide)

/-- C8 counterexample: the valid single-subject term with grade point
8.554 (= 4277/500) and credits 1 yields SGPA 8.55 (= 171/20), which is
not 8.554: sgpa = g fails for a g finer than two decimals. -/
theorem claim8_counterexample :
    validate_data (recordJ [[(4277/500, 1)]]) = .ok () ∧
    calculate_sgpa (.list ([((4277 : ℚ)/500, (1 : ℚ))].map subjJ)) = .ok (171/20, 1) ∧
    ((171 : ℚ)/20) ≠ 4277/500 :=
  ⟨by with_unfolding_all decide, by with_unfolding_all decide, by with_unfolding_all decide⟩

/-- C9: whenever process_calculation returns a result, its cgpa lies
between the minimum and the maximum of its sgpas list (inclusive), the
2-decimal rounding of the mean notwithstanding. -/
theorem claim9_cgpa_between (d : JVal) (res : CalcResult) (s : ℚ) (rest : List ℚ)
    (h : process_calculation d = .ok res) (hs : res.sgpas = s :: rest) :
    rest.foldl min s ≤ res.cgpa ∧ res.cgpa ≤ rest.foldl max s := by
  unfold process_calculation at h
  cases hg : getItem d "semesters" with
  | error e => rw [hg] at h; simp at h
  | ok sems =>
    rw [hg] at h
    dsimp only [] at h
    cases hi : asIterable sems with
    | error e => rw [hi] at h; simp at h
    | ok items =>
      rw [hi] at h
      dsimp only [] at h
      cases hp : processSems 1 items with
      | error e => rw [hp] at h; simp at h
      | ok pair =>
        rw [hp] at h
        dsimp only [] at h
        cases hcg : calculate_cgpa pair.1 with
        | error e => rw [hcg] at h; simp at h
        | ok cg =>
          rw [hcg] at h
          dsimp only [] at h
          injection h with h
          subst h
          obtain ⟨hlen0, hcgval⟩ := calculate_cgpa_ok hcg
          dsimp only [] at hs ⊢
          have hform := processSems_sgpa_form items 1 pair.1 pair.2 hp
          rw [hs] at hform hcgval
          have hub : ∀ x ∈ s :: rest, x ≤ rest.foldl max s := by
            intro x hx
            rcases List.mem_cons.mp hx with rfl | hx
            · exact le_foldl_max rest x
            · exact mem_le_foldl_max rest s x hx
          have hlb : ∀ x ∈ s :: rest, rest.foldl min s ≤ x := by
            intro x hx
            rcases List.mem_cons.mp hx with rfl | hx
            · exact foldl_min_le rest x
            · exact foldl_min_le_mem rest s x hx
          have hMmem : rest.foldl max s ∈ s :: rest := by
            rcases foldl_max_choice rest s with hc | hc
            · rw [hc]; exact List.mem_cons_self _ _
            · exact List.mem_cons_of_mem _ hc
          have hmmem : rest.foldl min s ∈ s :: rest := by
            rcases foldl_min_choice rest s with hc | hc
            · rw [hc]; exact List.mem_cons_self _ _
            · exact List.mem_cons_of_mem _ hc
          obtain ⟨zM, hzM⟩ := hform _ hMmem
          obtain ⟨zm, hzm⟩ := hform _ hmmem
          have hlenpos : (0 : ℚ) < ((s :: rest).length : ℚ) := by
            have hn : 0 < (s :: rest).length := Nat.succ_pos _
            exact_mod_cast hn
          have hmean_le : (s :: rest).sum / ((s :: rest).length : ℚ) ≤ rest.foldl max s := by
            rw [div_le_iff₀ hlenpos]
            have hb := sum_le_length_mul (s :: rest) (rest.foldl max s) hub
            linarith
          have hle_mean : rest.foldl min s ≤ (s :: rest).sum / ((s :: rest).length : ℚ) := by
            rw [le_div_iff₀ hlenpos]
            have hb := length_mul_le_sum (s :: rest) (rest.foldl min s) hlb
            linarith
          constructor
          · have hmono := round2_mono hle_mean
            rw [hzm, round2_div100, ← hzm] at hmono
            rw [hcgval]
            exact hmono
          · have hmono := round2_mono hmean_le
            rw [hzM, round2_div100, ← hzM] at hmono
            rw [hcgval]
            exact hmono

/-- Witness for C9 at the record [[(9, 1)]] with sgpas = [9]. -/
theorem claim9_witness :
    ([] : List ℚ).foldl min 9 ≤
        (CalcResult.mk [9] 9 1 [⟨1, 9, 1, 1⟩]).cgpa ∧
      (CalcResult.mk [9] 9 1 [⟨1, 9, 1, 1⟩]).cgpa ≤ ([] : List ℚ).foldl max 9 :=
  claim9_cgpa_between (recordJ [[(9, 1)]]) (CalcResult.mk [9] 9 1 [⟨1, 9, 1, 1⟩]) 9 []
    (by with_unfolding_all decide) (by rfl)

/-- C10: the record whose gp field is the numeric string "9.0" passes
parse_api_input and validate_data (which coerces with float and discards
the coerced values) but process_calculation then raises a TypeError,
which is not a ValueError, so the request handler surfaces it as a 500
internal error rather than a 400 validation error. -/
theorem claim10_string_leak :
    parse_api_input badStrRec = .ok badStrRec ∧
    validate_data badStrRec = .ok () ∧
    process_calculation badStrRec = .error .typeErr ∧
    ∀ e : VErr, PyErr.typeErr ≠ PyErr.valueErr e :=
  ⟨by rfl, by with_unfolding_all decide, by with_unfolding_all decide,
    fun e h => PyErr.noConfusion h⟩

end Cgpa
